import Mathlib

/-!
# Body-Based Router (BBR) plugin engine — shallow embedding

This file embeds the plugin execution engine of the body-based-router
ext_proc server: the string-keyed plugin registry (`registry.go`), the
ordered plugin chain with its shared-parse cache, the request-body
orchestration of `HandleRequestBody`, the `MergeMaps` helper, the
`simple-model-extractor` plugin, and the `BodyFieldToHeaderPlugin`.

Modelling conventions:
* Raw `[]byte` bodies are uninterpreted strings (`Bytes`); the engine never
  inspects body bytes itself, only external JSON decoders do, and those
  decoders (`encoding/json`, the openai-go `UnmarshalJSON` methods) are
  abstracted as function parameters.
* Go string maps are association lists (`StrMap`) with unique-key insert
  semantics (`insertVal`); a possibly-`nil` Go map is `GoStrMap = Option StrMap`.
* Go's `(value, error)` returns become `Except String _` or a pair with
  `Option String`; in-place mutation of a receiver becomes state passing.
* A Go runtime panic (nil-interface method call, slice index out of range)
  is a distinct outcome `GoResult.panicked`, separate from a returned error.
* A zero-argument plugin constructor (`PluginFactoryFunc`) is embedded as a
  `Unit`-thunk returning the plugin value.
-/

/-- Raw request-body bytes, kept uninterpreted by the engine. -/
abbrev Bytes := String

/-- A Go `map[string]string` value (non-nil), as an association list. -/
abbrev StrMap := List (String × String)

/-- A Go `map[string]string` variable that may be `nil` (`none`). -/
abbrev GoStrMap := Option StrMap

/-- Go map read `m[k]` returning `(v, ok)`-style presence: the first binding. -/
def lookupVal {α : Type} : List (String × α) → String → Option α
  | [], _ => none
  | (k, v) :: rest, key => if k = key then some v else lookupVal rest key

/-- Go map write `m[k] = v`: replaces an existing binding, else appends. -/
def insertVal {α : Type} : List (String × α) → String → α → List (String × α)
  | [], k, v => [(k, v)]
  | (k0, v0) :: rest, k, v =>
    if k0 = k then (k, v) :: rest else (k0, v0) :: insertVal rest k v

/-- Go map read `m[k]` of a possibly-nil `map[string]string`, yielding the
zero value `""` when the key is absent or the map is nil. -/
def mapIndex (m : GoStrMap) (k : String) : String :=
  match m with
  | none => ""
  | some mm => (lookupVal mm k).getD ""

/-- Does the first character list start with the second? -/
def hasPrefixL : List Char → List Char → Bool
  | _, [] => true
  | [], _ :: _ => false
  | a :: as, b :: bs => a = b && hasPrefixL as bs

/-- Does the first character list contain the second as a contiguous run? -/
def hasSubstrL : List Char → List Char → Bool
  | [], pat => hasPrefixL [] pat
  | c :: rest, pat => hasPrefixL (c :: rest) pat || hasSubstrL rest pat

/-- Go `strings.Contains(s, pat)`. -/
def strContains (s pat : String) : Bool :=
  hasSubstrL s.toList pat.toList

/-- Outcome of running a piece of Go code: normal value, returned `error`,
or a runtime panic. -/
inductive GoResult (α : Type) where
  | ok (a : α)
  | err (e : String)
  | panicked (msg : String)
deriving DecidableEq

/-- Go's panic message for calling a method on a nil interface value. -/
def nilDerefMsg : String :=
  "runtime error: invalid memory address or nil pointer dereference"

/-- Go's panic message for indexing a slice out of range. -/
def indexRangeMsg : String := "runtime error: index out of range"

-- ---------------------------------------------------------------------------
-- utils.MergeMaps (src/unnamed/part_002, lines 21-39)
-- ---------------------------------------------------------------------------

/-- The loop body of `MergeMaps`: `if _, exists := dst[k]; !exists { dst[k] = v }`. -/
def mergeStep (acc : StrMap) (kv : String × String) : StrMap :=
  if (lookupVal acc kv.1).isSome then acc else acc ++ [kv]

/-- The `for k, v := range src` loop of `MergeMaps` over a non-nil `dst`. -/
def mergeFold (dst src : StrMap) : StrMap :=
  src.foldl mergeStep dst

/-- `utils.MergeMaps(dst, src)`: copies bindings of `src` into `dst` only for
keys absent from `dst`; allocates a map when needed so the result is never
nil. -/
def MergeMaps (dst src : GoStrMap) : GoStrMap :=
  match src with
  | none =>
    match dst with
    | none => some []
    | some _ => dst
  | some s =>
    some (mergeFold (dst.getD []) s)

-- ---------------------------------------------------------------------------
-- Plugin capability taxonomy (src/unnamed/part_003, framework/plugins)
-- ---------------------------------------------------------------------------

/-- `plugins.TypedName` (`Type` is spelled `ty`, `Name` is `nm`). -/
structure TypedName where
  ty : String
  nm : String
deriving DecidableEq

/-- The parsed openai `ChatCompletionNewParams` shape, restricted to the
`Model` field, the only field this engine reads. -/
structure ChatCompletionNewParams where
  Model : String
deriving DecidableEq

/-- The parsed openai `CompletionNewParams` shape, restricted to `Model`. -/
structure CompletionNewParams where
  Model : String
deriving DecidableEq

/-- The `interface{}` value returned by `PluginsChain.GetSharedMemory`:
either a Go nil interface or one of the two parsed shapes. -/
inductive SharedMemory where
  | nil
  | chat (params : ChatCompletionNewParams)
  | completion (params : CompletionNewParams)
deriving DecidableEq

/-- A `bbrplugins.BBRPlugin` instance.  The two `as...` fields embed Go type
assertions: `some f` when the dynamic value also implements the corresponding
specialized interface, with `f` the method implementation. -/
structure BBRPlugin where
  typedName : TypedName
  requiresFullParsing : Bool
  asMetadataExtractor :
    Option (Bytes → List String → SharedMemory → Except String GoStrMap)
  asModelSelector :
    Option (Bytes → SharedMemory → Except String (GoStrMap × Bytes))

/-- `framework.PluginFactoryFunc`, a zero-argument constructor. -/
abbrev PluginFactoryFunc := Unit → BBRPlugin

-- ---------------------------------------------------------------------------
-- Plugin registry (src/pkg/bbr/framework/registry.go and interfaces.go)
-- ---------------------------------------------------------------------------

/-- `framework.SupportedInterfaces`: capability type → allowed implementation
names. -/
def SupportedInterfaces : List (String × List String) :=
  [("ModelSelector", ["semantic-model-selector"]),
   ("GuardRail", ["bad-words-blocker", "pid-disclosure-blocker"]),
   ("MetadataExtractor", ["simple-model-extractor"])]

/-- The claim's notion of a `(type, name)` pair being present in
`SupportedInterfaces`: its type is a key and its name is in that type's
allowed-implementation list.  (Spec-side definition, used to state C7.) -/
def pairSupported (ty nm : String) : Bool :=
  match lookupVal SupportedInterfaces ty with
  | none => false
  | some impls => impls.contains nm

/-- `framework.pluginRegistry`: factories and singleton instances, both keyed
by the capability type string. -/
structure PluginRegistry where
  pluginsFactory : List (String × PluginFactoryFunc)
  plugins : List (String × BBRPlugin)

/-- `pluginRegistry.RegisterFactory`.  Go mutates the receiver; here the
updated registry is returned together with the `error` result. -/
def RegisterFactory (r : PluginRegistry) (typeKey : String)
    (factory : PluginFactoryFunc) : PluginRegistry × Option String :=
  match lookupVal SupportedInterfaces typeKey with
  | none => (r, some ("non-supported plugin interface type " ++ typeKey))
  | some _ =>
    ({ r with pluginsFactory := insertVal r.pluginsFactory typeKey factory },
     none)

/-- `pluginRegistry.RegisterPlugin`: validates the interface type, the
implementation name, and factory presence, then stores the instance keyed by
its type. -/
def RegisterPlugin (r : PluginRegistry) (plugin : BBRPlugin) :
    PluginRegistry × Option String :=
  match lookupVal SupportedInterfaces plugin.typedName.ty with
  | none =>
    (r, some ("non-supported plugin interface type " ++ plugin.typedName.ty))
  | some implementations =>
    if implementations.length = 0 ∨ ¬ implementations.contains plugin.typedName.nm then
      (r, some ("no implementation for plugin interface type " ++
        plugin.typedName.ty))
    else if (lookupVal r.pluginsFactory plugin.typedName.ty).isSome then
      ({ r with plugins := insertVal r.plugins plugin.typedName.ty plugin },
       none)
    else
      (r, some ("no plugin factory registered for plugin interface type " ++
        plugin.typedName.ty))

/-- `pluginRegistry.ContainsFactory`. -/
def ContainsFactory (r : PluginRegistry) (typeKey : String) : Bool :=
  (lookupVal r.pluginsFactory typeKey).isSome

/-- `pluginRegistry.ContainsPlugin`. -/
def ContainsPlugin (r : PluginRegistry) (typeKey : String) : Bool :=
  (lookupVal r.plugins typeKey).isSome

-- ---------------------------------------------------------------------------
-- Plugins chain (src/pkg/bbr/framework/registry.go, pluginsChain)
-- ---------------------------------------------------------------------------

/-- `framework.pluginsChain`: ordered type keys plus the two shared parsed
shapes (zero-valued until a parse populates them). -/
structure PluginsChain where
  plugins : List String
  sharedChatCompletion : ChatCompletionNewParams
  sharedCompletion : CompletionNewParams
deriving DecidableEq

/-- The external openai-go JSON decoders backing
`ChatCompletionNewParams.UnmarshalJSON` / `CompletionNewParams.UnmarshalJSON`,
abstracted as functions on the raw bytes. -/
structure Codecs where
  unmarshalChatCompletion : Bytes → Except String ChatCompletionNewParams
  unmarshalCompletion : Bytes → Except String CompletionNewParams

/-- `pluginsChain.ParseChatCompletion`: unmarshals into the shared shape and
returns it (the partially-written struct on a decode error is unobservable,
since every caller aborts on the error). -/
def ParseChatCompletion (c : Codecs) (pc : PluginsChain) (data : Bytes) :
    Except String (ChatCompletionNewParams × PluginsChain) :=
  match c.unmarshalChatCompletion data with
  | .error e => .error e
  | .ok v => .ok (v, { pc with sharedChatCompletion := v })

/-- `pluginsChain.ParseCompletion`. -/
def ParseCompletion (c : Codecs) (pc : PluginsChain) (data : Bytes) :
    Except String (CompletionNewParams × PluginsChain) :=
  match c.unmarshalCompletion data with
  | .error e => .error e
  | .ok v => .ok (v, { pc with sharedCompletion := v })

/-- `pluginsChain.GetSharedMemory`: keyed by the endpoint string, nil
interface for any other key. -/
def GetSharedMemory (pc : PluginsChain) (which : String) : SharedMemory :=
  if which = "/v1/completions" then .completion pc.sharedCompletion
  else if which = "/v1/chat/completions" then .chat pc.sharedChatCompletion
  else .nil

/-- The registry lookup performed by `pluginsChain.GetPlugin(index, r)` once
the index guard has passed: `r.GetPlugins()[pc.plugins[index]]`. -/
def resolveKey (r : PluginRegistry) (key : String) : Except String BBRPlugin :=
  match lookupVal r.plugins key with
  | none => .error ("plugin index is not found in the registry")
  | some p => .ok p

/-- `pluginsChain.AddPluginAtInd(typeKey, i, r)`.  The Go guard admits
`i == len(pc.plugins)`, after which `pc.plugins[i]` is evaluated — for
`i == len` that slice indexing panics at runtime. -/
def AddPluginAtInd (pc : PluginsChain) (typeKey : String) (i : Int)
    (r : PluginRegistry) : GoResult PluginsChain :=
  if i < 0 ∨ i > (pc.plugins.length : Int) then
    .err ("index " ++ toString i ++ " is out of range")
  else
    match pc.plugins.get? i.toNat with
    | none => .panicked indexRangeMsg
    | some existingKey =>
      if (lookupVal r.plugins existingKey).isSome then
        .ok { pc with plugins :=
          pc.plugins.take i.toNat ++ typeKey :: pc.plugins.drop i.toNat }
      else
        .err ("plugin index " ++ toString i ++ " is not found in the registry")

-- ---------------------------------------------------------------------------
-- simple-model-extractor (src/pkg/bbr/framework/plugins/simple_model_extractor.go)
-- ---------------------------------------------------------------------------

/-- `bbrplugins.ModelHeaderKey` — the header key the extractor writes. -/
def ModelHeaderKey : String := "model"

/-- `bbrplugins.ModelHeader` — the canonical model header the orchestrator
reads. -/
def ModelHeader : String := "X-Gateway-Model-Name"

/-- `simpleModelExtractor.Extract`.  `jsonModelDecode` abstracts
`json.Unmarshal(requestBodyBytes, &RequestBody{Model})` of `defaultImpl`,
yielding the decoded `Model` field.  The `metaDataKeys` are ignored by this
implementation, and a nil shared-memory interface falls into the `default`
arm of the type switch, which returns an error. -/
def simpleModelExtractorExtract (jsonModelDecode : Bytes → Except String String)
    (requestBodyBytes : Bytes) (_metaDataKeys : List String)
    (sharedMemory : SharedMemory) : Except String GoStrMap :=
  match sharedMemory with
  | .chat sharedMem =>
    if sharedMem.Model.length > 0 then
      .ok (some [(ModelHeaderKey, sharedMem.Model)])
    else
      match jsonModelDecode requestBodyBytes with
      | .error e => .error e
      | .ok m => .ok (some [(ModelHeaderKey, m)])
  | .completion sharedMem =>
    if sharedMem.Model.length > 0 then
      .ok (some [(ModelHeaderKey, sharedMem.Model)])
    else
      match jsonModelDecode requestBodyBytes with
      | .error e => .error e
      | .ok m => .ok (some [(ModelHeaderKey, m)])
  | .nil => .error "unsupported shared memory type: <nil>"

/-- `bbrplugins.NewSimpleModelExtractor`. -/
def NewSimpleModelExtractor (jsonModelDecode : Bytes → Except String String) :
    BBRPlugin :=
  { typedName := ⟨"MetadataExtractor", "simple-model-extractor"⟩,
    requiresFullParsing := false,
    asMetadataExtractor := some (simpleModelExtractorExtract jsonModelDecode),
    asModelSelector := none }

-- ---------------------------------------------------------------------------
-- Request orchestrator (src/unnamed/part_001, HandleRequestBody)
-- ---------------------------------------------------------------------------

/-- The BBR server state consulted by `HandleRequestBody`. -/
structure Server where
  endpoint : String
  streaming : Bool
  metaDataKeys : List String
  registry : PluginRegistry
  requestChain : PluginsChain
  codecs : Codecs

/-- Result of the full-parse decision loop.  `parseCalls` is a ghost counter
of how many times `ParseCompletion`/`ParseChatCompletion` actually ran. -/
structure ScanResult where
  which : String
  chain : PluginsChain
  parseCalls : Nat
deriving DecidableEq

/-- The first loop of `HandleRequestBody`: scan the chain in order for a
plugin requiring full parsing; an unresolvable entry is logged and skipped;
at the first requiring plugin, parse according to the endpoint and `break`. -/
def fullParseScan (endpoint : String) (r : PluginRegistry) (c : Codecs)
    (pc : PluginsChain) (body : Bytes) :
    List String → Except String ScanResult
  | [] => .ok ⟨"", pc, 0⟩
  | key :: rest =>
    match lookupVal r.plugins key with
    | none => fullParseScan endpoint r c pc body rest
    | some plugin =>
      if plugin.requiresFullParsing then
        if strContains endpoint "/v1/completions" then
          match ParseCompletion c pc body with
          | .error e => .error e
          | .ok (_, pcNew) => .ok ⟨"/v1/completions", pcNew, 1⟩
        else if strContains endpoint "/v1/chat/completions" then
          match ParseChatCompletion c pc body with
          | .error e => .error e
          | .ok (_, pcNew) => .ok ⟨"/v1/chat/completions", pcNew, 1⟩
        else
          .ok ⟨"", pc, 0⟩
      else fullParseScan endpoint r c pc body rest

/-- What one iteration of the execution loop observed for a chain entry:
the resolution outcome and, when a specialized method ran, its result. -/
inductive EntryOutcome where
  | unresolved
  | extractorCall (res : Except String GoStrMap)
  | extractorBadIface
  | selectorCall (tn : TypedName) (res : Except String (GoStrMap × Bytes))
  | selectorBadIface
  | unknownType (t : String)

/-- Mutable loop state of the execution loop. -/
structure LoopSt where
  allHeaders : GoStrMap
  mutatedBodyBytes : Bytes
deriving DecidableEq

/-- One iteration of the execution loop.  An unresolved entry has its error
discarded (`plugin, _ := ...`) and the subsequent `plugin.TypedName()` call
on the nil interface panics. -/
def stepOutcome (st : LoopSt) : EntryOutcome → GoResult LoopSt
  | .unresolved => .panicked nilDerefMsg
  | .extractorCall res =>
    match res with
    | .error e => .err e
    | .ok headers =>
      .ok { st with allHeaders := MergeMaps st.allHeaders headers }
  | .extractorBadIface => .ok st
  | .selectorCall tn res =>
    match res with
    | .error e => .err e
    | .ok (headers, mutated) =>
      if mutated.length = 0 then
        .err ("empty mutated body bytes slice returned from plugin " ++
          tn.ty ++ "/" ++ tn.nm)
      else
        .ok { allHeaders := MergeMaps st.allHeaders headers,
              mutatedBodyBytes := mutated }
  | .selectorBadIface => .ok st
  | .unknownType _ => .ok st

/-- The execution loop over the per-entry outcomes. -/
def chainLoop : LoopSt → List EntryOutcome → GoResult LoopSt
  | st, [] => .ok st
  | st, e :: rest =>
    match stepOutcome st e with
    | .ok stNew => chainLoop stNew rest
    | .err m => .err m
    | .panicked m => .panicked m

/-- Computes the `EntryOutcome` of one chain entry from its resolution:
dispatch on the instance's declared type string, then the Go type assertion,
then the specialized call. -/
def entryOf (body : Bytes) (keys : List String) (shared : SharedMemory) :
    Except String BBRPlugin → EntryOutcome
  | .error _ => .unresolved
  | .ok p =>
    if p.typedName.ty = "MetadataExtractor" then
      match p.asMetadataExtractor with
      | some f => .extractorCall (f body keys shared)
      | none => .extractorBadIface
    else if p.typedName.ty = "ModelSelector" then
      match p.asModelSelector with
      | some f => .selectorCall p.typedName (f body shared)
      | none => .selectorBadIface
    else .unknownType p.typedName.ty

/-- ext_proc protocol response model: the fields the engine sets. -/
inductive BodyMutationT where
  | body (b : Bytes)
  | streamedResponse (b : Bytes) (endOfStream : Bool)
deriving DecidableEq

/-- The `CommonResponse` fields the engine touches. -/
structure CommonResponseT where
  clearRouteCache : Bool
  setHeaders : List (String × Bytes)
  bodyMutation : Option BodyMutationT
deriving DecidableEq

/-- A `ProcessingResponse`; `none` payloads model empty
`HeadersResponse{}` / `BodyResponse{}` messages. -/
inductive ProcessingResponse where
  | requestHeaders (resp : Option CommonResponseT)
  | requestBody (resp : Option CommonResponseT)
  | requestTrailers
deriving DecidableEq

/-- `addStreamedBodyResponse`: a body-phase chunk marked end-of-stream. -/
def streamedBodyResponse (b : Bytes) : ProcessingResponse :=
  .requestBody (some ⟨false, [], some (.streamedResponse b true)⟩)

/-- `Server.HandleRequestBody`: parse decision, sequential execution,
model-presence check, response assembly. -/
def HandleRequestBody (s : Server) (requestBodyBytes : Bytes) :
    GoResult (List ProcessingResponse) :=
  match fullParseScan s.endpoint s.registry s.codecs s.requestChain
      requestBodyBytes s.requestChain.plugins with
  | .error e => .err e
  | .ok scan =>
    let shared := GetSharedMemory scan.chain scan.which
    let entries := s.requestChain.plugins.map
      (fun key => entryOf requestBodyBytes s.metaDataKeys shared
        (resolveKey s.registry key))
    match chainLoop ⟨some [], requestBodyBytes⟩ entries with
    | .err e => .err e
    | .panicked m => .panicked m
    | .ok st =>
      let model := mapIndex st.allHeaders ModelHeader
      if model = "" then
        if s.streaming then
          .ok [.requestHeaders none, streamedBodyResponse requestBodyBytes]
        else
          .ok [.requestBody none]
      else
        if s.streaming then
          .ok [.requestHeaders
                (some ⟨true, [(ModelHeader, model)], none⟩),
               streamedBodyResponse st.mutatedBodyBytes]
        else
          .ok [.requestBody
                (some ⟨true, [(ModelHeader, model)],
                  some (.body st.mutatedBodyBytes)⟩)]

-- ---------------------------------------------------------------------------
-- BodyFieldToHeaderPlugin (src/pkg/bbr/plugins/body_fields_extractor.go)
-- ---------------------------------------------------------------------------

/-- A `map[string]any` body value: a string, or any other dynamic value
carried together with its `fmt.Sprintf("%v", ·)` rendering. -/
inductive GoValue where
  | str (s : String)
  | other (rendering : String)
deriving DecidableEq

/-- A parsed request body, Go's `map[string]any`. -/
abbrev GoObj := List (String × GoValue)

/-- The header value Execute derives from a body field: the string itself for
strings, the `%v` rendering otherwise. -/
def goSprintV : GoValue → String
  | .str s => s
  | .other r => r

/-- The loop body of `BodyFieldToHeaderPlugin.Execute` for one
`(headerName, fieldName)` mapping entry. -/
def bfthStep (body : GoObj) (acc : StrMap) (kv : String × String) : StrMap :=
  match lookupVal body kv.2 with
  | none => acc
  | some v => insertVal acc kv.1 (goSprintV v)

/-- `BodyFieldToHeaderPlugin.Execute`: builds `updatedHeaders` from scratch
out of the configured header-to-field map and the body, ignores the incoming
`headers` argument, returns the body unchanged and a nil error. -/
def BodyFieldToHeaderExecute (headerToFieldMap : StrMap) (_headers : GoStrMap)
    (body : GoObj) : StrMap × GoObj × Option String :=
  (headerToFieldMap.foldl (bfthStep body) [], body, none)

-- ---------------------------------------------------------------------------
-- Shared lemmas
-- ---------------------------------------------------------------------------

theorem lookupVal_append {α : Type} (a b : List (String × α)) (k : String) :
    lookupVal (a ++ b) k =
      (match lookupVal a k with
       | some v => some v
       | none => lookupVal b k) := by
  induction a with
  | nil => simp [lookupVal]
  | cons p rest ih =>
    cases p with
    | mk k0 v0 =>
      by_cases h : k0 = k
      · simp [lookupVal, h]
      · simp [lookupVal, h, ih]

theorem lookupVal_mergeStep_of_isSome (acc : StrMap) (kv : String × String)
    (k : String) (h : (lookupVal acc k).isSome = true) :
    lookupVal (mergeStep acc kv) k = lookupVal acc k := by
  unfold mergeStep
  by_cases hp : (lookupVal acc kv.1).isSome = true
  · simp [hp]
  · simp only [hp]
    rw [if_neg (by simp [hp])]
    rw [lookupVal_append]
    cases hl : lookupVal acc k with
    | some v => simp
    | none => simp [hl] at h

theorem isSome_lookupVal_mergeStep (acc : StrMap) (kv : String × String)
    (k : String) (h : (lookupVal acc k).isSome = true) :
    (lookupVal (mergeStep acc kv) k).isSome = true := by
  rw [lookupVal_mergeStep_of_isSome acc kv k h]; exact h

theorem lookupVal_mergeFold_of_isSome (src : StrMap) :
    ∀ (dst : StrMap) (k : String), (lookupVal dst k).isSome = true →
      lookupVal (mergeFold dst src) k = lookupVal dst k := by
  induction src with
  | nil => intro dst k _; rfl
  | cons kv rest ih =>
    intro dst k h
    show lookupVal (mergeFold (mergeStep dst kv) rest) k = lookupVal dst k
    rw [ih (mergeStep dst kv) k (isSome_lookupVal_mergeStep dst kv k h)]
    exact lookupVal_mergeStep_of_isSome dst kv k h

theorem isSome_lookupVal_mergeStep_self (acc : StrMap) (kv : String × String) :
    (lookupVal (mergeStep acc kv) kv.1).isSome = true := by
  unfold mergeStep
  by_cases hp : (lookupVal acc kv.1).isSome = true
  · simp [hp]
  · rw [if_neg (by simp [hp])]
    rw [lookupVal_append]
    cases hl : lookupVal acc kv.1 with
    | some v => simp
    | none =>
      cases kv with
      | mk k0 v0 => simp [lookupVal]

theorem isSome_lookupVal_mergeFold (src : StrMap) :
    ∀ (dst : StrMap) (kv : String × String), kv ∈ src →
      (lookupVal (mergeFold dst src) kv.1).isSome = true := by
  induction src with
  | nil => intro dst kv h; cases h
  | cons kv0 rest ih =>
    intro dst kv h
    show (lookupVal (mergeFold (mergeStep dst kv0) rest) kv.1).isSome = true
    rcases List.mem_cons.mp h with h0 | hrest
    · subst h0
      rcases hr : lookupVal (mergeFold (mergeStep dst kv) rest) kv.1 with _ | v
      · have hpres := isSome_lookupVal_mergeStep_self dst kv
        have := lookupVal_mergeFold_of_isSome rest (mergeStep dst kv) kv.1 hpres
        rw [this] at hr
        rw [hr] at hpres
        simp at hpres
      · simp
    · exact ih (mergeStep dst kv0) kv hrest

theorem mergeFold_no_new_keys (src : StrMap) :
    ∀ (acc : StrMap), (∀ kv ∈ src, (lookupVal acc kv.1).isSome = true) →
      mergeFold acc src = acc := by
  induction src with
  | nil => intro acc _; rfl
  | cons kv rest ih =>
    intro acc h
    show mergeFold (mergeStep acc kv) rest = acc
    have hk : (lookupVal acc kv.1).isSome = true := h kv (by simp)
    have hstep : mergeStep acc kv = acc := by
      unfold mergeStep; simp [hk]
    rw [hstep]
    exact ih acc (fun kv2 hm => h kv2 (by simp [hm]))

theorem mergeFold_idem (dst src : StrMap) :
    mergeFold (mergeFold dst src) src = mergeFold dst src := by
  exact mergeFold_no_new_keys src (mergeFold dst src)
    (fun kv hm => isSome_lookupVal_mergeFold src dst kv hm)

-- ---------------------------------------------------------------------------
-- C9 — MergeMaps never overwrites, is idempotent, and never returns nil
-- ---------------------------------------------------------------------------

/-- C9: for every key already bound in `dst`, `MergeMaps` leaves the binding
unchanged (a key receives `src`'s value only when absent); merging the same
`src` twice equals merging it once; and the result is a non-nil map even when
`dst` or `src` is nil. -/
theorem mergeMaps_fill_only_idem_nonnil (dst src : StrMap) (k : String)
    (h : (lookupVal dst k).isSome = true) :
    lookupVal (mergeFold dst src) k = lookupVal dst k
    ∧ MergeMaps (MergeMaps (some dst) (some src)) (some src)
        = MergeMaps (some dst) (some src)
    ∧ ∀ a b : GoStrMap, (MergeMaps a b).isSome = true := by
  refine ⟨lookupVal_mergeFold_of_isSome src dst k h, ?_, ?_⟩
  · show some (mergeFold (mergeFold dst src) src) = some (mergeFold dst src)
    rw [mergeFold_idem]
  · intro a b
    cases b with
    | none => cases a <;> rfl
    | some s => rfl

/-- Witness for C9 at concrete maps: key "a" is bound in `dst`, and the merge
keeps `dst`'s value. -/
theorem mergeMaps_fill_only_idem_nonnil_witness :
    lookupVal (mergeFold [("a", "1")] [("a", "2"), ("b", "3")]) "a"
        = lookupVal [("a", "1")] "a"
    ∧ MergeMaps (MergeMaps (some [("a", "1")]) (some [("a", "2"), ("b", "3")]))
        (some [("a", "2"), ("b", "3")])
        = MergeMaps (some [("a", "1")]) (some [("a", "2"), ("b", "3")])
    ∧ ∀ a b : GoStrMap, (MergeMaps a b).isSome = true :=
  mergeMaps_fill_only_idem_nonnil [("a", "1")] [("a", "2"), ("b", "3")] "a"
    (by decide)

-- ---------------------------------------------------------------------------
-- C2 — header merge across the execution loop
-- ---------------------------------------------------------------------------

/-- C2 (code behavior at the claimed input): when two metadata-extractor
entries return `{"H":"a"}` then `{"H":"b"}`, the accumulator keeps `"a"` —
`MergeMaps` never overwrites, so the later extractor does NOT win, contrary
to the claim; an extractor `{"H":"a"}` followed by a selector `{"H":"c"}`
also keeps `"a"` (that half of the claim matches the code). -/
theorem chainLoop_extractors_keep_first_value :
    chainLoop ⟨some [], "b"⟩
        [.extractorCall (.ok (some [("H", "a")])),
         .extractorCall (.ok (some [("H", "b")]))]
      = .ok ⟨some [("H", "a")], "b"⟩
    ∧ chainLoop ⟨some [], "b"⟩
        [.extractorCall (.ok (some [("H", "a")])),
         .selectorCall ⟨"ModelSelector", "s"⟩ (.ok (some [("H", "c")], "b2"))]
      = .ok ⟨some [("H", "a")], "b2"⟩ := by
  constructor <;> rfl

-- ---------------------------------------------------------------------------
-- C3 — simple-model-extractor given the absent shared-memory value
-- ---------------------------------------------------------------------------

/-- C3 (code behavior): with no plugin requiring full parsing the orchestrator
passes `GetSharedMemory("")`, the nil interface; `Extract` then hits the
`default` arm of its type switch and returns an error instead of falling back
to localized parsing. -/
theorem simpleModelExtractor_errors_on_nil_shared
    (dec : Bytes → Except String String) (body : Bytes) (keys : List String) :
    GetSharedMemory ⟨["MetadataExtractor"], ⟨""⟩, ⟨""⟩⟩ "" = SharedMemory.nil
    ∧ simpleModelExtractorExtract dec body keys SharedMemory.nil
        = .error "unsupported shared memory type: <nil>" := by
  constructor <;> rfl

-- ---------------------------------------------------------------------------
-- C5 — AddPluginAtInd at the end of the chain
-- ---------------------------------------------------------------------------

/-- C5 (code behavior at the failing inputs): inserting at index `n` (the end
of the chain) passes the bounds guard but then evaluates `pc.plugins[i]`,
which panics — for the empty chain at `i = 0` and for a singleton chain at
`i = 1`. -/
theorem addPluginAtInd_at_end_panics :
    AddPluginAtInd ⟨[], ⟨""⟩, ⟨""⟩⟩ "MetadataExtractor" 0 ⟨[], []⟩
      = .panicked indexRangeMsg
    ∧ AddPluginAtInd ⟨["MetadataExtractor"], ⟨""⟩, ⟨""⟩⟩ "GuardRail" 1 ⟨[], []⟩
      = .panicked indexRangeMsg := by
  constructor <;> rfl

-- ---------------------------------------------------------------------------
-- C4 — unresolvable chain entry in the execution loop
-- ---------------------------------------------------------------------------

/-- C4 (code behavior at the failing input): a chain entry whose type key has
no instance in the registry is skipped by the parse-decision loop, but the
execution loop discards the resolution error and calls `TypedName()` on the
nil plugin, so the request panics instead of continuing. -/
theorem handleRequestBody_panics_on_unresolved_entry (c : Codecs) :
    HandleRequestBody
        ⟨"/v1/completions", false, ["model"], ⟨[], []⟩,
         ⟨["MetadataExtractor"], ⟨""⟩, ⟨""⟩⟩, c⟩
        "body"
      = .panicked nilDerefMsg := by
  rfl

-- ---------------------------------------------------------------------------
-- C1 — round trip for /v1/completions with the simple-model-extractor
-- ---------------------------------------------------------------------------

/-- C1 (code behavior at the claimed input): with one simple-model-extractor
and no selector, no plugin requires full parsing, so the extractor receives
the nil shared memory and errors; `HandleRequestBody` aborts the request
instead of returning `X-Gateway-Model-Name: foo` with the original body. -/
theorem handleRequestBody_completions_roundtrip_fails (c : Codecs)
    (dec : Bytes → Except String String) :
    HandleRequestBody
        ⟨"/v1/completions", false, ["model"],
         ⟨[], [("MetadataExtractor", NewSimpleModelExtractor dec)]⟩,
         ⟨["MetadataExtractor"], ⟨""⟩, ⟨""⟩⟩, c⟩
        "\x7b\"model\":\"foo\",\"prompt\":\"hi\"\x7d"
      = .err "unsupported shared memory type: <nil>" := by
  rfl

-- ---------------------------------------------------------------------------
-- C7 — registration of unsupported (type, name) pairs
-- ---------------------------------------------------------------------------

/-- C7 counterexample: the pair ("MetadataExtractor", "bogus") is not in
`SupportedInterfaces`, yet `RegisterFactory` — which only sees the type —
succeeds and grows the factory map, so the claim as stated is false. -/
theorem registerFactory_accepts_unsupported_pair :
    pairSupported "MetadataExtractor" "bogus" = false
    ∧ (RegisterFactory ⟨[], []⟩ "MetadataExtractor"
        (fun _ => ⟨⟨"MetadataExtractor", "bogus"⟩, false, none, none⟩)).2 = none
    ∧ ContainsFactory
        (RegisterFactory ⟨[], []⟩ "MetadataExtractor"
          (fun _ => ⟨⟨"MetadataExtractor", "bogus"⟩, false, none, none⟩)).1
        "MetadataExtractor" = true
    ∧ ContainsFactory ⟨[], []⟩ "MetadataExtractor" = false := by
  exact ⟨rfl, rfl, rfl, rfl⟩

/-- C7 amended: `RegisterFactory` rejects and leaves the registry unchanged
when the TYPE is not a `SupportedInterfaces` key (it never sees the name);
`RegisterPlugin` rejects and leaves the registry unchanged for every
unsupported `(type, name)` pair. -/
theorem register_unsupported_rejected_unchanged (tk nm : String)
    (r : PluginRegistry) (f : PluginFactoryFunc) (p : BBRPlugin)
    (hpair : pairSupported tk nm = false) (hp : p.typedName = ⟨tk, nm⟩) :
    (lookupVal SupportedInterfaces tk = none →
      (RegisterFactory r tk f).1 = r
      ∧ (RegisterFactory r tk f).2.isSome = true)
    ∧ (RegisterPlugin r p).1 = r
    ∧ (RegisterPlugin r p).2.isSome = true := by
  have hty : p.typedName.ty = tk := by rw [hp]
  have hnm : p.typedName.nm = nm := by rw [hp]
  have hplug : (RegisterPlugin r p).1 = r ∧ (RegisterPlugin r p).2.isSome = true := by
    unfold RegisterPlugin
    rw [hty]
    cases hl : lookupVal SupportedInterfaces tk with
    | none => exact ⟨rfl, rfl⟩
    | some impls =>
      have hcontains : impls.contains nm = false := by
        unfold pairSupported at hpair
        rw [hl] at hpair
        exact hpair
      have hn : nm ∉ impls := by simpa using hcontains
      simp [hnm, hcontains, if_pos (Or.inr hn)]
  refine ⟨?_, hplug⟩
  intro hnone
  unfold RegisterFactory
  rw [hnone]
  exact ⟨rfl, rfl⟩

/-- Witness for the amended C7 at a concrete unsupported pair. -/
theorem register_unsupported_rejected_unchanged_witness :
    (lookupVal SupportedInterfaces "Bogus" = none →
      (RegisterFactory ⟨[], []⟩ "Bogus"
          (fun _ => ⟨⟨"Bogus", "x"⟩, false, none, none⟩)).1 = ⟨[], []⟩
      ∧ (RegisterFactory ⟨[], []⟩ "Bogus"
          (fun _ => ⟨⟨"Bogus", "x"⟩, false, none, none⟩)).2.isSome = true)
    ∧ (RegisterPlugin ⟨[], []⟩ ⟨⟨"Bogus", "x"⟩, false, none, none⟩).1 = ⟨[], []⟩
    ∧ (RegisterPlugin ⟨[], []⟩ ⟨⟨"Bogus", "x"⟩, false, none, none⟩).2.isSome
        = true :=
  register_unsupported_rejected_unchanged "Bogus" "x" ⟨[], []⟩
    (fun _ => ⟨⟨"Bogus", "x"⟩, false, none, none⟩)
    ⟨⟨"Bogus", "x"⟩, false, none, none⟩ rfl rfl



-- ---------------------------------------------------------------------------
-- C8 — the full-body parse runs at most once
-- ---------------------------------------------------------------------------

/-- One unrolling of the parse-decision loop. -/
theorem fullParseScan_cons (endpoint : String) (r : PluginRegistry)
    (c : Codecs) (pc : PluginsChain) (body : Bytes) (key : String)
    (rest : List String) :
    fullParseScan endpoint r c pc body (key :: rest)
      = (match lookupVal r.plugins key with
         | none => fullParseScan endpoint r c pc body rest
         | some plugin =>
           if plugin.requiresFullParsing then
             (if strContains endpoint "/v1/completions" then
               match ParseCompletion c pc body with
               | .error e => .error e
               | .ok (_, pcNew) => .ok ⟨"/v1/completions", pcNew, 1⟩
             else if strContains endpoint "/v1/chat/completions" then
               match ParseChatCompletion c pc body with
               | .error e => .error e
               | .ok (_, pcNew) => .ok ⟨"/v1/chat/completions", pcNew, 1⟩
             else .ok ⟨"", pc, 0⟩)
           else fullParseScan endpoint r c pc body rest) := rfl

theorem fullParseScan_cons_none (endpoint : String) (r : PluginRegistry)
    (c : Codecs) (pc : PluginsChain) (body : Bytes) (key : String)
    (rest : List String) (hl : lookupVal r.plugins key = none) :
    fullParseScan endpoint r c pc body (key :: rest)
      = fullParseScan endpoint r c pc body rest := by
  rw [fullParseScan_cons, hl]

theorem fullParseScan_cons_some (endpoint : String) (r : PluginRegistry)
    (c : Codecs) (pc : PluginsChain) (body : Bytes) (key : String)
    (rest : List String) (p : BBRPlugin)
    (hl : lookupVal r.plugins key = some p) :
    fullParseScan endpoint r c pc body (key :: rest)
      = (if p.requiresFullParsing then
          (if strContains endpoint "/v1/completions" then
            match ParseCompletion c pc body with
            | .error e => .error e
            | .ok (_, pcNew) => .ok ⟨"/v1/completions", pcNew, 1⟩
          else if strContains endpoint "/v1/chat/completions" then
            match ParseChatCompletion c pc body with
            | .error e => .error e
            | .ok (_, pcNew) => .ok ⟨"/v1/chat/completions", pcNew, 1⟩
          else .ok ⟨"", pc, 0⟩)
        else fullParseScan endpoint r c pc body rest) := by
  rw [fullParseScan_cons, hl]

theorem fullParseScan_calls_le_one (endpoint : String) (r : PluginRegistry)
    (c : Codecs) (pc : PluginsChain) (body : Bytes) :
    ∀ (keys : List String) (scan : ScanResult),
      fullParseScan endpoint r c pc body keys = .ok scan →
        scan.parseCalls ≤ 1 := by
  intro keys
  induction keys with
  | nil =>
    intro scan h
    injection h with h2
    rw [← h2]
    exact Nat.zero_le 1
  | cons key rest ih =>
    intro scan h
    cases hl : lookupVal r.plugins key with
    | none =>
      rw [fullParseScan_cons_none endpoint r c pc body key rest hl] at h
      exact ih scan h
    | some p =>
      rw [fullParseScan_cons_some endpoint r c pc body key rest p hl] at h
      by_cases hreq : p.requiresFullParsing = true
      · rw [if_pos hreq] at h
        by_cases h1 : strContains endpoint "/v1/completions" = true
        · rw [if_pos h1] at h
          cases hp : ParseCompletion c pc body with
          | error e => rw [hp] at h; exact Except.noConfusion h
          | ok pr =>
            obtain ⟨v0, pcNew⟩ := pr
            rw [hp] at h
            injection h with h2
            rw [← h2]
        · rw [if_neg h1] at h
          by_cases h2c : strContains endpoint "/v1/chat/completions" = true
          · rw [if_pos h2c] at h
            cases hp : ParseChatCompletion c pc body with
            | error e => rw [hp] at h; exact Except.noConfusion h
            | ok pr =>
              obtain ⟨v0, pcNew⟩ := pr
              rw [hp] at h
              injection h with h2
              rw [← h2]
          · rw [if_neg h2c] at h
            injection h with h2
            rw [← h2]
            exact Nat.zero_le 1
      · rw [if_neg hreq] at h
        exact ih scan h

theorem fullParseScan_no_requiring (endpoint : String) (r : PluginRegistry)
    (c : Codecs) (pc : PluginsChain) (body : Bytes) :
    ∀ keys : List String,
      (∀ key p, key ∈ keys → lookupVal r.plugins key = some p →
        p.requiresFullParsing = false) →
      fullParseScan endpoint r c pc body keys = .ok ⟨"", pc, 0⟩ := by
  intro keys
  induction keys with
  | nil => intro _; rfl
  | cons key rest ih =>
    intro hall
    have htail := ih (fun k2 p2 hm hl2 => hall k2 p2 (by simp [hm]) hl2)
    cases hl : lookupVal r.plugins key with
    | none =>
      rw [fullParseScan_cons_none endpoint r c pc body key rest hl]
      exact htail
    | some p =>
      rw [fullParseScan_cons_some endpoint r c pc body key rest p hl]
      rw [if_neg (by rw [hall key p (by simp) hl]; simp)]
      exact htail

/-- C8: the parse-decision loop invokes a parse routine at most once, stops
scanning at the first (resolvable) plugin that requires full parsing, runs no
parse when no plugin requires it, and — for a `/v1/completions` endpoint with
a successful decode — runs exactly one parse populating the completions
shape. -/
theorem fullParseScan_parse_at_most_once (endpoint : String)
    (r : PluginRegistry) (c : Codecs) (pc : PluginsChain) (body : Bytes)
    (keys : List String) (scan : ScanResult)
    (hscan : fullParseScan endpoint r c pc body keys = .ok scan) :
    scan.parseCalls ≤ 1
    ∧ (∀ key rest p, lookupVal r.plugins key = some p →
        p.requiresFullParsing = true →
        fullParseScan endpoint r c pc body (key :: rest)
          = fullParseScan endpoint r c pc body [key])
    ∧ ((∀ key p, key ∈ keys → lookupVal r.plugins key = some p →
          p.requiresFullParsing = false) →
        scan = ⟨"", pc, 0⟩)
    ∧ (∀ key rest p v, lookupVal r.plugins key = some p →
        p.requiresFullParsing = true →
        strContains endpoint "/v1/completions" = true →
        c.unmarshalCompletion body = .ok v →
        fullParseScan endpoint r c pc body (key :: rest)
          = .ok ⟨"/v1/completions", { pc with sharedCompletion := v }, 1⟩) := by
  refine ⟨fullParseScan_calls_le_one endpoint r c pc body keys scan hscan,
    ?_, ?_, ?_⟩
  · intro key rest p hl hreq
    rw [fullParseScan_cons_some endpoint r c pc body key rest p hl,
      fullParseScan_cons_some endpoint r c pc body key [] p hl]
    rw [if_pos hreq, if_pos hreq]
  · intro hall
    have h2 := fullParseScan_no_requiring endpoint r c pc body keys hall
    rw [hscan] at h2
    exact Except.ok.inj h2
  · intro key rest p v hl hreq hcont hok
    rw [fullParseScan_cons_some endpoint r c pc body key rest p hl]
    rw [if_pos hreq, if_pos hcont]
    unfold ParseCompletion
    rw [hok]

/-- Witness for C8 at a concrete chain: one requiring plugin on a
`/v1/completions` endpoint, whose scan parses exactly once. -/
theorem fullParseScan_parse_at_most_once_witness :
    (ScanResult.mk "/v1/completions" ⟨["MetadataExtractor"], ⟨""⟩, ⟨"m"⟩⟩ 1).parseCalls ≤ 1
    ∧ (∀ key rest p,
        lookupVal ([("MetadataExtractor",
          (⟨⟨"MetadataExtractor", "simple-model-extractor"⟩, true, none, none⟩ :
            BBRPlugin))] : List (String × BBRPlugin)) key = some p →
        p.requiresFullParsing = true →
        fullParseScan "/v1/completions"
            ⟨[], [("MetadataExtractor",
              ⟨⟨"MetadataExtractor", "simple-model-extractor"⟩, true, none, none⟩)]⟩
            ⟨fun _ => .error "", fun _ => .ok ⟨"m"⟩⟩
            ⟨["MetadataExtractor"], ⟨""⟩, ⟨""⟩⟩ "b" (key :: rest)
          = fullParseScan "/v1/completions"
            ⟨[], [("MetadataExtractor",
              ⟨⟨"MetadataExtractor", "simple-model-extractor"⟩, true, none, none⟩)]⟩
            ⟨fun _ => .error "", fun _ => .ok ⟨"m"⟩⟩
            ⟨["MetadataExtractor"], ⟨""⟩, ⟨""⟩⟩ "b" [key])
    ∧ ((∀ key p, key ∈ (["MetadataExtractor"] : List String) →
          lookupVal ([("MetadataExtractor",
            (⟨⟨"MetadataExtractor", "simple-model-extractor"⟩, true, none, none⟩ :
              BBRPlugin))] : List (String × BBRPlugin)) key = some p →
          p.requiresFullParsing = false) →
        (ScanResult.mk "/v1/completions" ⟨["MetadataExtractor"], ⟨""⟩, ⟨"m"⟩⟩ 1)
          = ⟨"", ⟨["MetadataExtractor"], ⟨""⟩, ⟨""⟩⟩, 0⟩)
    ∧ (∀ key rest p v,
        lookupVal ([("MetadataExtractor",
          (⟨⟨"MetadataExtractor", "simple-model-extractor"⟩, true, none, none⟩ :
            BBRPlugin))] : List (String × BBRPlugin)) key = some p →
        p.requiresFullParsing = true →
        strContains "/v1/completions" "/v1/completions" = true →
        (Codecs.mk (fun _ => .error "") (fun _ => .ok ⟨"m"⟩)).unmarshalCompletion "b"
          = .ok v →
        fullParseScan "/v1/completions"
            ⟨[], [("MetadataExtractor",
              ⟨⟨"MetadataExtractor", "simple-model-extractor"⟩, true, none, none⟩)]⟩
            ⟨fun _ => .error "", fun _ => .ok ⟨"m"⟩⟩
            ⟨["MetadataExtractor"], ⟨""⟩, ⟨""⟩⟩ "b" (key :: rest)
          = .ok ⟨"/v1/completions",
              { (⟨["MetadataExtractor"], ⟨""⟩, ⟨""⟩⟩ : PluginsChain) with
                sharedCompletion := v }, 1⟩) :=
  fullParseScan_parse_at_most_once "/v1/completions"
    ⟨[], [("MetadataExtractor",
      ⟨⟨"MetadataExtractor", "simple-model-extractor"⟩, true, none, none⟩)]⟩
    ⟨fun _ => .error "", fun _ => .ok ⟨"m"⟩⟩
    ⟨["MetadataExtractor"], ⟨""⟩, ⟨""⟩⟩ "b" ["MetadataExtractor"]
    ⟨"/v1/completions", ⟨["MetadataExtractor"], ⟨""⟩, ⟨"m"⟩⟩, 1⟩
    rfl


-- ---------------------------------------------------------------------------
-- C6 — an empty mutated body from a ModelSelector aborts the request
-- ---------------------------------------------------------------------------

/-- One unrolling of the execution loop. -/
theorem chainLoop_cons (st : LoopSt) (e : EntryOutcome)
    (rest : List EntryOutcome) :
    chainLoop st (e :: rest)
      = (match stepOutcome st e with
         | .ok stNew => chainLoop stNew rest
         | .err m => .err m
         | .panicked m => .panicked m) := rfl

theorem chainLoop_append (as bs : List EntryOutcome) :
    ∀ st : LoopSt,
      chainLoop st (as ++ bs) =
        (match chainLoop st as with
         | .ok st2 => chainLoop st2 bs
         | .err e => .err e
         | .panicked m => .panicked m) := by
  induction as with
  | nil => intro st; rfl
  | cons e rest ih =>
    intro st
    rw [List.cons_append, chainLoop_cons, chainLoop_cons]
    cases stepOutcome st e with
    | ok stNew => exact ih stNew
    | err m => rfl
    | panicked m => rfl

/-- If the parse phase succeeds and the execution loop returns an error,
`HandleRequestBody` returns that error and no responses. -/
theorem handleRequestBody_loop_err (s : Server) (body : Bytes)
    (scan : ScanResult) (e : String)
    (hscan : fullParseScan s.endpoint s.registry s.codecs s.requestChain body
        s.requestChain.plugins = .ok scan)
    (hloop : chainLoop ⟨some [], body⟩
        (s.requestChain.plugins.map
          (fun key => entryOf body s.metaDataKeys
            (GetSharedMemory scan.chain scan.which)
            (resolveKey s.registry key))) = .err e) :
    HandleRequestBody s body = .err e := by
  unfold HandleRequestBody
  rw [hscan]
  simp only [hloop]

/-- C6: if the parse phase completes, every entry before position `i`
executes without aborting, and the chain's `i`-th entry resolves to a
`ModelSelector` whose `Select` returns an empty mutated body for this
request, then `HandleRequestBody` aborts the whole request with the
protocol-violation error and returns no processing responses. -/
theorem handleRequestBody_aborts_on_empty_selector_body (s : Server)
    (body : Bytes) (scan : ScanResult) (pre post : List String) (k : String)
    (p : BBRPlugin)
    (f : Bytes → SharedMemory → Except String (GoStrMap × Bytes))
    (hm : GoStrMap) (st0 : LoopSt)
    (hscan : fullParseScan s.endpoint s.registry s.codecs s.requestChain body
        s.requestChain.plugins = .ok scan)
    (hkeys : s.requestChain.plugins = pre ++ k :: post)
    (hres : resolveKey s.registry k = .ok p)
    (hty : p.typedName.ty = "ModelSelector")
    (hsel : p.asModelSelector = some f)
    (hf : f body (GetSharedMemory scan.chain scan.which) = .ok (hm, ""))
    (hpre : chainLoop ⟨some [], body⟩
        (pre.map (fun key => entryOf body s.metaDataKeys
          (GetSharedMemory scan.chain scan.which) (resolveKey s.registry key)))
        = .ok st0) :
    HandleRequestBody s body
      = .err ("empty mutated body bytes slice returned from plugin " ++
          p.typedName.ty ++ "/" ++ p.typedName.nm) := by
  have hk : entryOf body s.metaDataKeys (GetSharedMemory scan.chain scan.which)
      (resolveKey s.registry k)
      = .selectorCall p.typedName (.ok (hm, "")) := by
    rw [hres]
    show (if p.typedName.ty = "MetadataExtractor" then
            (match p.asMetadataExtractor with
             | some f2 => EntryOutcome.extractorCall
                 (f2 body s.metaDataKeys (GetSharedMemory scan.chain scan.which))
             | none => .extractorBadIface)
          else if p.typedName.ty = "ModelSelector" then
            (match p.asModelSelector with
             | some f2 => EntryOutcome.selectorCall p.typedName
                 (f2 body (GetSharedMemory scan.chain scan.which))
             | none => .selectorBadIface)
          else .unknownType p.typedName.ty)
        = EntryOutcome.selectorCall p.typedName (.ok (hm, ""))
    rw [if_neg (by rw [hty]; decide), if_pos hty, hsel]
    show EntryOutcome.selectorCall p.typedName
        (f body (GetSharedMemory scan.chain scan.which))
      = EntryOutcome.selectorCall p.typedName (.ok (hm, ""))
    rw [hf]
  apply handleRequestBody_loop_err s body scan _ hscan
  rw [hkeys, List.map_append, List.map_cons, chainLoop_append, hpre]
  show chainLoop st0
      (entryOf body s.metaDataKeys (GetSharedMemory scan.chain scan.which)
          (resolveKey s.registry k)
        :: post.map (fun key => entryOf body s.metaDataKeys
            (GetSharedMemory scan.chain scan.which) (resolveKey s.registry key)))
    = .err ("empty mutated body bytes slice returned from plugin " ++
        p.typedName.ty ++ "/" ++ p.typedName.nm)
  rw [hk, chainLoop_cons]
  rfl

/-- Witness for C6: a one-entry chain whose selector returns an empty body
makes `HandleRequestBody` return the protocol-violation error. -/
theorem handleRequestBody_aborts_on_empty_selector_body_witness :
    HandleRequestBody
        ⟨"/x", false, ["model"],
         ⟨[], [("ModelSelector",
           ⟨⟨"ModelSelector", "semantic-model-selector"⟩, false, none,
            some (fun _ _ => .ok (none, ""))⟩)]⟩,
         ⟨["ModelSelector"], ⟨""⟩, ⟨""⟩⟩,
         ⟨fun _ => .error "", fun _ => .error ""⟩⟩
        "b"
      = .err ("empty mutated body bytes slice returned from plugin " ++
          "ModelSelector" ++ "/" ++ "semantic-model-selector") :=
  handleRequestBody_aborts_on_empty_selector_body
    ⟨"/x", false, ["model"],
     ⟨[], [("ModelSelector",
       ⟨⟨"ModelSelector", "semantic-model-selector"⟩, false, none,
        some (fun _ _ => .ok (none, ""))⟩)]⟩,
     ⟨["ModelSelector"], ⟨""⟩, ⟨""⟩⟩,
     ⟨fun _ => .error "", fun _ => .error ""⟩⟩
    "b"
    ⟨"", ⟨["ModelSelector"], ⟨""⟩, ⟨""⟩⟩, 0⟩
    [] [] "ModelSelector"
    ⟨⟨"ModelSelector", "semantic-model-selector"⟩, false, none,
     some (fun _ _ => .ok (none, ""))⟩
    (fun _ _ => .ok (none, ""))
    none ⟨some [], "b"⟩
    rfl rfl rfl rfl rfl rfl rfl

-- ---------------------------------------------------------------------------
-- C10 — BodyFieldToHeaderPlugin.Execute builds headers from scratch
-- ---------------------------------------------------------------------------

theorem lookupVal_insertVal_self {α : Type} (m : List (String × α))
    (k : String) (v : α) : lookupVal (insertVal m k v) k = some v := by
  induction m with
  | nil => simp [insertVal, lookupVal]
  | cons p rest ih =>
    cases p with
    | mk k0 v0 =>
      by_cases h : k0 = k
      · simp [insertVal, h, lookupVal]
      · simp [insertVal, h, lookupVal, ih]

theorem lookupVal_insertVal_ne {α : Type} (m : List (String × α))
    (k k2 : String) (v : α) (hne : k ≠ k2) :
    lookupVal (insertVal m k v) k2 = lookupVal m k2 := by
  induction m with
  | nil => simp [insertVal, lookupVal, hne]
  | cons p rest ih =>
    cases p with
    | mk k0 v0 =>
      by_cases h : k0 = k
      · subst h
        simp [insertVal, lookupVal, hne]
      · simp [insertVal, h, lookupVal, ih]

theorem lookupVal_eq_none_of_not_mem {α : Type} (m : List (String × α))
    (k : String) (h : k ∉ m.map Prod.fst) : lookupVal m k = none := by
  induction m with
  | nil => rfl
  | cons p rest ih =>
    rw [List.map_cons, List.mem_cons] at h
    push_neg at h
    cases p with
    | mk k0 v0 =>
      have h1 : k0 ≠ k := fun he => h.1 he.symm
      simp [lookupVal, h1, ih h.2]

theorem bfthFold_lookup (body : GoObj) :
    ∀ (m : StrMap) (acc : StrMap) (h : String), (m.map Prod.fst).Nodup →
      lookupVal (m.foldl (bfthStep body) acc) h =
        (match lookupVal m h with
         | none => lookupVal acc h
         | some fn =>
           match lookupVal body fn with
           | none => lookupVal acc h
           | some v => some (goSprintV v)) := by
  intro m
  induction m with
  | nil => intro acc h _; rfl
  | cons kv rest ih =>
    intro acc h hnd
    cases kv with
    | mk hn fn =>
      rw [List.map_cons, List.nodup_cons] at hnd
      have hres := ih (bfthStep body acc (hn, fn)) h hnd.2
      rw [List.foldl_cons, hres]
      by_cases hh : hn = h
      · subst hh
        have hrest : lookupVal rest hn = none :=
          lookupVal_eq_none_of_not_mem rest hn hnd.1
        rw [hrest]
        show lookupVal (bfthStep body acc (hn, fn)) hn
          = (match lookupVal ((hn, fn) :: rest) hn with
             | none => lookupVal acc hn
             | some fn =>
               match lookupVal body fn with
               | none => lookupVal acc hn
               | some v => some (goSprintV v))
        have hhead : lookupVal ((hn, fn) :: rest) hn = some fn := by
          simp [lookupVal]
        rw [hhead]
        show lookupVal (match lookupVal body fn with
                        | none => acc
                        | some v => insertVal acc hn (goSprintV v)) hn
          = (match lookupVal body fn with
             | none => lookupVal acc hn
             | some v => some (goSprintV v))
        cases hb : lookupVal body fn with
        | none => rfl
        | some v => exact lookupVal_insertVal_self acc hn (goSprintV v)
      · have hside : lookupVal ((hn, fn) :: rest) h = lookupVal rest h := by
          simp [lookupVal, hh]
        rw [hside]
        have hacc : lookupVal (bfthStep body acc (hn, fn)) h = lookupVal acc h := by
          show lookupVal (match lookupVal body fn with
                          | none => acc
                          | some v => insertVal acc hn (goSprintV v)) h
            = lookupVal acc h
          cases hb : lookupVal body fn with
          | none => rfl
          | some v => exact lookupVal_insertVal_ne acc hn h (goSprintV v) hh
        rw [hacc]

/-- C10: for every incoming headers map and body, `Execute` returns a nil
error, the body unchanged, and a freshly built headers map whose bindings are
exactly the configured header names whose mapped field exists in the body —
independent of the incoming headers map. -/
theorem bodyFieldToHeader_execute_spec (m : StrMap) (hs : GoStrMap)
    (body : GoObj) (hnd : (m.map Prod.fst).Nodup) :
    (BodyFieldToHeaderExecute m hs body).2.1 = body
    ∧ (BodyFieldToHeaderExecute m hs body).2.2 = none
    ∧ ∀ h : String,
        lookupVal (BodyFieldToHeaderExecute m hs body).1 h =
          (match lookupVal m h with
           | none => none
           | some fn => (lookupVal body fn).map goSprintV) := by
  refine ⟨rfl, rfl, ?_⟩
  intro h
  show lookupVal (m.foldl (bfthStep body) []) h = _
  rw [bfthFold_lookup body m [] h hnd]
  cases lookupVal m h with
  | none => rfl
  | some fn =>
    show (match lookupVal body fn with
          | none => lookupVal ([] : StrMap) h
          | some v => some (goSprintV v))
      = (lookupVal body fn).map goSprintV
    cases lookupVal body fn with
    | none => rfl
    | some v => rfl

/-- Witness for C10 at a concrete plugin configuration and body. -/
theorem bodyFieldToHeader_execute_spec_witness :
    (BodyFieldToHeaderExecute [("X-Model-Name", "model")]
        (some [("Stale", "s")]) [("model", .str "gpt-4")]).2.1
      = [("model", GoValue.str "gpt-4")]
    ∧ (BodyFieldToHeaderExecute [("X-Model-Name", "model")]
        (some [("Stale", "s")]) [("model", .str "gpt-4")]).2.2 = none
    ∧ ∀ h : String,
        lookupVal (BodyFieldToHeaderExecute [("X-Model-Name", "model")]
            (some [("Stale", "s")]) [("model", .str "gpt-4")]).1 h =
          (match lookupVal [("X-Model-Name", "model")] h with
           | none => none
           | some fn =>
             (lookupVal ([("model", GoValue.str "gpt-4")] : GoObj) fn).map
               goSprintV) :=
  bodyFieldToHeader_execute_spec [("X-Model-Name", "model")]
    (some [("Stale", "s")]) [("model", .str "gpt-4")] (by decide)
